import Mathlib

/-!
Shallow embedding of the core of `immichctl` (a client-side working-set
manager for a remote photo service), covering:
 - the timezone-offset parser `parse_exif_timezone`,
 - the timestamp resolver (`get_date_time_original` and helpers),
 - the date-time adjuster `adjust_date_time_original`,
 - the selection store (`assets.rs`) with its JSON persistence,
 - the search add/remove commands with their pagination loops
   (`asset_cmd.rs`).

Conventions of the embedding:
 - `chrono` instants (`DateTime<Utc>`) are modelled as `Int` seconds since
   the Unix epoch; all timestamps exercised by the embedded logic are at
   whole-second granularity, so `TimeDelta::num_seconds` is exact here.
 - `chrono::FixedOffset` is an `Int` of seconds east of UTC, constructed
   only through `east_opt`, which enforces chrono's open bound of one day.
 - `DateTime<FixedOffset>` is the pair of the absolute instant and the
   display offset; chrono compares such values by instant alone.
 - Rust strings are `List Char` (Unicode scalar values) together with the
   UTF-8 byte length where the source indexes by bytes; a byte slice at a
   non-boundary index is a Rust panic, modelled as a distinguished outcome.
 - Machine-integer casts that can wrap (`as i32`) are modelled with an
   explicit reduction modulo 2^32.
-/

namespace Immich

/-- chrono `FixedOffset::east_opt`: accepts a seconds-east offset strictly
between -86400 and 86400, rejects anything else. -/
def east_opt (secs : Int) : Option Int :=
  if -86400 < secs ∧ secs < 86400 then some secs else none

/-- chrono `DateTime<FixedOffset>`: an absolute UTC instant (seconds since
epoch) plus the display offset (seconds east of UTC). chrono's `Ord`
compares the instant only; `to_rfc3339` displays `instant + offset` wall
time tagged with `offset`. -/
structure DateTimeFO where
  instant : Int
  offset : Int
deriving DecidableEq, Repr

/-- Two's-complement reduction of an integer into the `i32` range, the
effect of the `as i32` cast in `asset_timezone_offset`. -/
def wrap32 (n : Int) : Int :=
  (n + 2147483648) % 4294967296 - 2147483648

/-! ## Rust string primitives used by `parse_exif_timezone` -/

/-- Byte length of one Unicode scalar value in UTF-8. -/
def utf8Len (c : Char) : Nat :=
  if c.toNat < 0x80 then 1
  else if c.toNat < 0x800 then 2
  else if c.toNat < 0x10000 then 3
  else 4

/-- Rust `str::len`: length in UTF-8 bytes. -/
def byteLen (s : List Char) : Nat :=
  (s.map utf8Len).sum

/-- Drop exactly `n` leading UTF-8 bytes; `none` when `n` is not a char
boundary or exceeds the string (a Rust slice panic). -/
def byteDrop : List Char → Nat → Option (List Char)
  | s, 0 => some s
  | [], _ + 1 => none
  | c :: cs, n + 1 =>
    if utf8Len c ≤ n + 1 then byteDrop cs (n + 1 - utf8Len c) else none

/-- Take exactly `n` leading UTF-8 bytes; `none` when `n` is not a char
boundary or exceeds the string (a Rust slice panic). -/
def byteTake : List Char → Nat → Option (List Char)
  | _, 0 => some []
  | [], _ + 1 => none
  | c :: cs, n + 1 =>
    if utf8Len c ≤ n + 1 then
      match byteTake cs (n + 1 - utf8Len c) with
      | some r => some (c :: r)
      | none => none
    else none

/-- Rust byte slice `s[a..b]` (with `a ≤ b`); `none` models the panic on a
non-boundary or out-of-range index. -/
def byteSlice (s : List Char) (a b : Nat) : Option (List Char) :=
  match byteDrop s a with
  | some t => byteTake t (b - a)
  | none => none

/-- Unicode `White_Space`, the set trimmed by Rust `str::trim`. -/
def isRustWhitespace (c : Char) : Bool :=
  let n := c.toNat
  (decide (9 ≤ n) && decide (n ≤ 13)) || n == 32 || n == 0x85 || n == 0xA0 ||
  n == 0x1680 || (decide (0x2000 ≤ n) && decide (n ≤ 0x200A)) ||
  n == 0x2028 || n == 0x2029 || n == 0x202F || n == 0x205F || n == 0x3000

/-- Rust `str::trim`. -/
def rustTrim (s : List Char) : List Char :=
  ((s.dropWhile isRustWhitespace).reverse.dropWhile isRustWhitespace).reverse

/-- Rust `str::split(sep)`: splitting the empty string yields one empty
part, matching the `Split` iterator. -/
def splitChar (sep : Char) : List Char → List (List Char)
  | [] => [[]]
  | c :: cs =>
    let r := splitChar sep cs
    if c = sep then [] :: r
    else
      match r with
      | h :: t => (c :: h) :: t
      | [] => [[c]]

/-- Accumulate the numeric value of a digit run; `none` if any char is not
an ASCII digit. The empty list yields `some 0` and is rejected by callers. -/
def digitsToNat (s : List Char) : Option Nat :=
  s.foldl
    (fun acc c =>
      match acc with
      | some n => if c.isDigit then some (n * 10 + (c.toNat - 48)) else none
      | none => none)
    (some 0)

/-- Rust `str::parse::<i32>()`: optional sign, one or more ASCII digits,
value within the `i32` range. -/
def parseI32 (s : List Char) : Option Int :=
  let sd : Int × List Char :=
    match s with
    | '+' :: rest => (1, rest)
    | '-' :: rest => (-1, rest)
    | _ => (1, s)
  match sd.2 with
  | [] => none
  | _ =>
    match digitsToNat sd.2 with
    | none => none
    | some n =>
      let v : Int := sd.1 * (n : Int)
      if -2147483648 ≤ v ∧ v ≤ 2147483647 then some v else none

/-! ## The timezone-offset parser -/

/-- Outcome of `parse_exif_timezone`: a parsed offset, a returned error, or
a Rust panic (`crash`). -/
inductive TzParse where
  | ok (offset : Int)
  | err
  | crash
deriving DecidableEq, Repr

/-- Shared tail of `parse_exif_timezone`: the bounds check
`hours > 14 || minutes > 59`, the combination
`(hours * 3600 + minutes * 60) * sign` and the final `east_opt`. -/
def tzFromParts (sign h m : Int) : TzParse :=
  if h > 14 ∨ m > 59 then .err
  else
    match east_opt ((h * 3600 + m * 60) * sign) with
    | some o => .ok o
    | none => .err

/-- `ImmichCtl::parse_exif_timezone` from `asset_cmd.rs`: trim, reject the
empty string, accept literal `UTC`, strip a `UTC` prefix, require a sign,
split the remainder on `:`, dispatch between the `HHMM` branch (byte length
of the hour part greater than 2, which byte-slices `[0..2]` and `[2..4]`)
and the `H`/`HH`/`H:MM`/`HH:MM` branch, then apply the shared bounds check. -/
def parse_exif_timezone (input : List Char) : TzParse :=
  let t := rustTrim input
  if t.isEmpty then .err
  else if t = "UTC".toList then
    match east_opt 0 with
    | some o => .ok o
    | none => .err
  else
    let t1 := if t.take 3 = "UTC".toList then t.drop 3 else t
    match t1 with
    | [] => .err
    | sc :: rest =>
      if sc = '+' ∨ sc = '-' then
        let sign : Int := if sc = '+' then 1 else -1
        let parts := splitChar ':' rest
        let hours_str := parts.headD []
        let minutes_str := (parts.drop 1).headD ['0']
        if !hours_str.contains ':' && byteLen hours_str > 2 then
          if byteLen hours_str ≠ 4 then .err
          else
            match byteSlice hours_str 0 2 with
            | none => .crash
            | some h2 =>
              match parseI32 h2 with
              | none => .err
              | some h =>
                match byteSlice hours_str 2 4 with
                | none => .crash
                | some m2 =>
                  match parseI32 m2 with
                  | none => .err
                  | some m => tzFromParts sign h m
        else
          match parseI32 hours_str with
          | none => .err
          | some h =>
            match parseI32 minutes_str with
            | none => .err
            | some m => tzFromParts sign h m
      else .err

/-! ## Asset records and the timestamp resolver -/

/-- The EXIF part of `AssetResponseDto` used by the core logic
(`exif_info.date_time_original : Option<DateTime<Utc>>` and
`exif_info.time_zone : Option<String>`). -/
structure ExifResponse where
  date_time_original : Option Int
  time_zone : Option String
deriving DecidableEq, Repr

/-- The fields of `AssetResponseDto` read or written by the core logic; the
remaining generated fields are carried opaquely by the program and never
inspected by the embedded functions. -/
structure AssetRecord where
  id : String
  file_created_at : Int
  local_date_time : Int
  is_favorite : Bool
  original_file_name : String
  exif_info : Option ExifResponse
deriving DecidableEq, Repr

/-- `ImmichCtl::asset_timezone_offset`: the signed-duration difference
`local_date_time - file_created_at` in whole seconds, cast `as i32`, then
`FixedOffset::east_opt(..).unwrap_or(UTC)`. -/
def asset_timezone_offset (a : AssetRecord) : Int :=
  let delta_sec := wrap32 (a.local_date_time - a.file_created_at)
  match east_opt delta_sec with
  | some o => o
  | none => 0

/-- `ImmichCtl::get_exif_date_time_original`: the EXIF instant re-expressed
at the parsed EXIF offset when every layer is present and the timezone
string parses. The outer `none` propagates a parser panic; the inner
`Option` is the Rust `Option` result. -/
def get_exif_date_time_original (a : AssetRecord) : Option (Option DateTimeFO) :=
  match a.exif_info with
  | none => some none
  | some e =>
    match e.date_time_original, e.time_zone with
    | some d, some tzs =>
      match parse_exif_timezone tzs.toList with
      | .ok tz => some (some ⟨d, tz⟩)
      | .err => some none
      | .crash => none
    | _, _ => some none

/-- `ImmichCtl::exif_timezone_offset`: just the parsed EXIF offset, same
layering; outer `none` is a parser panic. -/
def exif_timezone_offset (a : AssetRecord) : Option (Option Int) :=
  match a.exif_info with
  | none => some none
  | some e =>
    match e.time_zone with
    | none => some none
    | some tzs =>
      match parse_exif_timezone tzs.toList with
      | .ok tz => some (some tz)
      | .err => some none
      | .crash => none

/-- `ImmichCtl::get_assert_date_time_original` (sic): `file_created_at`
re-expressed at the device-derived offset. -/
def get_assert_date_time_original (a : AssetRecord) : DateTimeFO :=
  ⟨a.file_created_at, asset_timezone_offset a⟩

/-- `ImmichCtl::get_date_time_original`: EXIF-first precedence with the
device-derived fallback; `none` propagates a parser panic. -/
def get_date_time_original (a : AssetRecord) : Option DateTimeFO :=
  match get_exif_date_time_original a with
  | none => none
  | some (some dt) => some dt
  | some none => some (get_assert_date_time_original a)

/-- `ImmichCtl::adjust_date_time_original`: resolve the canonical instant,
add the `TimeDelta` (`delta` in seconds; chrono duration addition shifts the
absolute instant and keeps the offset), then `with_timezone` into the target
offset when given, else the resolved offset. `none` propagates a resolver
panic. -/
def adjust_date_time_original (a : AssetRecord) (delta : Int)
    (new_timezone : Option Int) : Option (DateTimeFO × DateTimeFO) :=
  match get_date_time_original a with
  | none => none
  | some dto =>
    let asset_tz := dto.offset
    let tz := match new_timezone with
      | some t => t
      | none => asset_tz
    let shifted : DateTimeFO := ⟨dto.instant + delta, dto.offset⟩
    some (dto, ⟨shifted.instant, tz⟩)

/-! ## The selection store (`assets.rs`) -/

/-- The `assets: HashMap<String, AssetResponseDto>` map, modelled as an
association list; `HashMap` semantics (keyed replacement, unordered
contents) are preserved by the operations below, and all store-level claims
are stated in terms of membership. -/
abbrev Store := List (String × AssetRecord)

/-- `Assets::add_asset`: `insert(asset.id, asset)` — replaces the entry
with the same key, otherwise appends. -/
def add_asset (s : Store) (a : AssetRecord) : Store :=
  if s.any (fun p => p.1 == a.id) then
    s.map (fun p => if p.1 == a.id then (a.id, a) else p)
  else s ++ [(a.id, a)]

/-- `Assets::remove_asset`. -/
def remove_asset (s : Store) (asset_id : String) : Store :=
  s.filter (fun p => !(p.1 == asset_id))

/-! ## Search arguments and criteria (`AssetSearchArgs`, `MetadataSearchDto`) -/

/-- `AssetSearchArgs` (without the `remove` direction flag, which selects
between the add and remove functions below). `taken_after`/`taken_before`
are CLI-parsed `DateTime<FixedOffset>` values, `timezone` a CLI-parsed
`FixedOffset`. -/
structure SearchArgs where
  id : Option String
  tag : Option String
  album : Option String
  favorite : Option Bool
  taken_after : Option DateTimeFO
  taken_before : Option DateTimeFO
  timezone : Option Int
deriving DecidableEq, Repr

/-- `AssetSearchArgs::default()`: every criterion unset. -/
def SearchArgs.empty : SearchArgs :=
  ⟨none, none, none, none, none, none, none⟩

/-- The fields of the generated `MetadataSearchDto` that `build_search_dto`
can set; unset fields keep their `Default` value. Parsed uuids are carried
as their canonical lowercase text. -/
structure MetadataSearchDto where
  id : Option String
  tag_ids : Option (List String)
  album_ids : List String
  is_favorite : Option Bool
  taken_after : Option Int
  taken_before : Option Int
deriving DecidableEq, Repr

/-- `MetadataSearchDto::default()`. -/
def dtoDefault : MetadataSearchDto :=
  ⟨none, none, [], none, none, none⟩

/-- ASCII hex digit. -/
def isHexDigit (c : Char) : Bool :=
  c.isDigit || (decide ('a' ≤ c) && decide (c ≤ 'f')) ||
  (decide ('A' ≤ c) && decide (c ≤ 'F'))

/-- `uuid::Uuid::parse_str` (external crate) in its hyphenated
`8-4-4-4-12` hex form, the only shape this program ever produces or reads;
the crate normalizes case, modelled by lowercasing. -/
def parseUuid (s : String) : Option String :=
  let parts := splitChar '-' s.toList
  if (parts.map List.length == [8, 4, 4, 4, 12]) &&
      parts.all (fun p => p.all isHexDigit) then
    some (String.mk (s.toList.map Char.toLower))
  else none

/-- One entry of the remote `get_all_tags` response. -/
structure TagInfo where
  id : String
  name : String
  value : String
deriving DecidableEq, Repr

/-- One entry of the remote `get_all_albums` response. -/
structure AlbumInfo where
  id : String
  album_name : String
deriving DecidableEq, Repr

/-- One remote `search_assets` response: a page of items and the optional
next-page token, an arbitrary string handed back by the service. -/
structure SearchPage where
  items : List AssetRecord
  next_page : Option String
deriving DecidableEq, Repr

/-- The remote service as seen by one command invocation: the tag and album
catalogs, and the successive `search_assets` responses in the order the
service produces them (an exhausted script models a network failure). -/
structure RemoteEnv where
  tags : List TagInfo
  albums : List AlbumInfo
  script : List SearchPage
deriving DecidableEq, Repr

/-- Error taxonomy of the embedded commands; `crash` is a Rust panic. -/
inductive CmdErr where
  | validation
  | notFound
  | remoteErr
  | invalidNextPage
  | crash
deriving DecidableEq, Repr

/-- `ImmichCtl::_find_tag_by_name`: tags matching on `name` or `value`;
exactly one match required, then its id is uuid-parsed. -/
def find_tag_by_name (tname : String) (tags : List TagInfo) : Option String :=
  match tags.filter (fun t => t.name == tname || t.value == tname) with
  | [t] => parseUuid t.id
  | _ => none

/-- `ImmichCtl::find_album_by_name`: albums matching on `album_name`; zero
matches and ambiguous matches are (distinct) errors, a non-uuid id is a
parse error; all are mapped into the command error taxonomy. -/
def find_album_by_name (aname : String) (albums : List AlbumInfo) :
    Except CmdErr String :=
  match albums.filter (fun a => a.album_name == aname) with
  | [] => .error .notFound
  | [a] =>
    match parseUuid a.id with
    | some u => .ok u
    | none => .error .validation
  | _ :: _ :: _ => .error .notFound

/-- `ImmichCtl::build_search_dto`: translate the CLI criteria into the
search dto, resolving tag and album names remotely (one `get_all_tags` or
`get_all_albums` call each), converting the taken bounds to UTC instants,
and rejecting a dto that still equals `Default`. Returns the result
together with the number of remote calls performed. -/
def build_search_dto (args : SearchArgs) (env : RemoteEnv) :
    Except CmdErr MetadataSearchDto × Nat :=
  let s0 : Except CmdErr MetadataSearchDto × Nat :=
    match args.id with
    | none => (.ok dtoDefault, 0)
    | some i =>
      match parseUuid i with
      | some u => (.ok { dtoDefault with id := some u }, 0)
      | none => (.error .validation, 0)
  match s0.1 with
  | .error e => (.error e, s0.2)
  | .ok d1 =>
    let s1 : Except CmdErr MetadataSearchDto × Nat :=
      match args.tag with
      | none => (.ok d1, s0.2)
      | some tname =>
        match find_tag_by_name tname env.tags with
        | some u => (.ok { d1 with tag_ids := some [u] }, s0.2 + 1)
        | none => (.error .notFound, s0.2 + 1)
    match s1.1 with
    | .error e => (.error e, s1.2)
    | .ok d2 =>
      let s2 : Except CmdErr MetadataSearchDto × Nat :=
        match args.album with
        | none => (.ok d2, s1.2)
        | some aname =>
          match find_album_by_name aname env.albums with
          | .ok u => (.ok { d2 with album_ids := d2.album_ids ++ [u] }, s1.2 + 1)
          | .error e => (.error e, s1.2 + 1)
      match s2.1 with
      | .error e => (.error e, s2.2)
      | .ok d3 =>
        let d4 := match args.favorite with
          | none => d3
          | some f => { d3 with is_favorite := some f }
        let d5 := match args.taken_after with
          | none => d4
          | some ta => { d4 with taken_after := some ta.instant }
        let d6 := match args.taken_before with
          | none => d5
          | some tb => { d5 with taken_before := some tb.instant }
        if d6 = dtoDefault then (.error .validation, s2.2)
        else (.ok d6, s2.2)

/-! ## The next-page token and the pagination loops -/

/-- The value space of Rust `f64` as consumed by the page loops. The loops
use the parsed token only as the next `page` field and in the comparison
with zero, so a finite value is carried exactly as its decimal mantissa and
exponent (`num m e` denotes `m * 10^e`, not normalized); its sign is the
sign of `m`, and f64 rounding preserves the sign except for magnitudes
below the smallest subnormal, which no claim here exercises. -/
inductive F64 where
  | num (m : Int) (e : Int)
  | posInf
  | negInf
  | nan
deriving DecidableEq, Repr

/-- The loop guard `page > 0f64` (any comparison with NaN is false). -/
def f64gt0 : F64 → Bool
  | .num m _ => decide (0 < m)
  | .posInf => true
  | .negInf => false
  | .nan => false

/-- Numeric value of an all-digit run (callers guarantee digits). -/
def digitsVal (s : List Char) : Nat :=
  s.foldl (fun acc c => acc * 10 + (c.toNat - 48)) 0

/-- Finite value `sign * (intPart.fracPart) * 10^exp`. -/
def f64OfParts (sgnNeg : Bool) (ip fp : List Char) (ex : Int) : F64 :=
  let m : Int := (digitsVal (ip ++ fp) : Int)
  .num (if sgnNeg then -m else m) (ex - (fp.length : Int))

/-- Rust `str::parse::<f64>()` grammar: an optional sign, then a
case-insensitive `inf`/`infinity`/`nan` keyword or a decimal number with at
least one mantissa digit and an optional integer exponent; anything else is
an error. -/
def parseF64 (s : List Char) : Option F64 :=
  let sr : Bool × List Char :=
    match s with
    | '+' :: r => (false, r)
    | '-' :: r => (true, r)
    | r => (false, r)
  let sgnNeg := sr.1
  let low := sr.2.map Char.toLower
  if low = "inf".toList ∨ low = "infinity".toList then
    some (if sgnNeg then .negInf else .posInf)
  else if low = "nan".toList then some .nan
  else
    let ip := sr.2.takeWhile Char.isDigit
    let r1 := sr.2.dropWhile Char.isDigit
    let fpr : List Char × List Char :=
      match r1 with
      | '.' :: r => (r.takeWhile Char.isDigit, r.dropWhile Char.isDigit)
      | r => ([], r)
    if ip.isEmpty ∧ (r1.head? ≠ some '.' ∨ fpr.1.isEmpty) then none
    else
      match fpr.2 with
      | [] => some (f64OfParts sgnNeg ip fpr.1 0)
      | 'e' :: r | 'E' :: r =>
        let esr : Bool × List Char :=
          match r with
          | '+' :: t => (false, t)
          | '-' :: t => (true, t)
          | t => (false, t)
        let eds := esr.2.takeWhile Char.isDigit
        let erest := esr.2.dropWhile Char.isDigit
        if eds.isEmpty ∨ ¬ erest.isEmpty then none
        else
          some (f64OfParts sgnNeg ip fpr.1
            ((if esr.1 then -1 else 1) * (digitsVal eds : Int)))
      | _ => none

/-- The `while page > 0` loop shared verbatim (up to the per-item store
mutation `act`) by `assets_search_add` and
`assets_search_remove_by_immich_query`: while the guard holds, issue a
`search_assets` call (logging the requested page value), feed every
returned item to `act` in response order, then either finish when
`next_page` is absent, fail when it does not parse as `f64`, or carry the
parsed value into the next iteration as the new page. An exhausted response
script is a remote failure on the attempted call. Returns the outcome and
the log of requested page values. -/
def searchLoop (act : Store → AssetRecord → Store) :
    List SearchPage → F64 → Store → List F64 →
    Except CmdErr Store × List F64
  | [], page, store, log =>
    if f64gt0 page then (.error .remoteErr, log ++ [page])
    else (.ok store, log)
  | resp :: rest, page, store, log =>
    if f64gt0 page then
      let log2 := log ++ [page]
      let store2 := resp.items.foldl act store
      match resp.next_page with
      | some tok =>
        match parseF64 tok.toList with
        | some v => searchLoop act rest v store2 log2
        | none => (.error .invalidNextPage, log2)
      | none => (.ok store2, log2)
    else (.ok store, log)

/-- Continuation decision of the corrected pagination contract, taken at
the moment a response arrives: no token stops, a token parsing as a
positive number continues, a token parsing as zero, negative, infinite-
negative or NaN stops, an unparsable token aborts. -/
def specTokenStep (tok : Option String) : Option Bool :=
  match tok with
  | none => some false
  | some t =>
    match parseF64 t.toList with
    | some v => some (f64gt0 v)
    | none => none

/-- Reference pagination driver written from the corrected contract: it
carries no page counter at all, consumes responses in order, folds every
item of a consumed response into the store, and decides continuation from
the token alone; it also counts the issued requests. -/
def specDrive (act : Store → AssetRecord → Store) :
    List SearchPage → Store → Except CmdErr Store × Nat
  | [], _store => (.error .remoteErr, 1)
  | resp :: rest, store =>
    let store2 := resp.items.foldl act store
    match specTokenStep resp.next_page with
    | some false => (.ok store2, 1)
    | none => (.error .invalidNextPage, 1)
    | some true =>
      let r := specDrive act rest store2
      (r.1, r.2 + 1)

/-! ## The search commands -/

/-- Observable outcome of one command run: the command result, the store
as durably persisted on disk afterwards (unchanged unless the command
reached its final `save()`), and the number of remote calls made. -/
structure CmdOutcome where
  result : Except CmdErr Unit
  disk : Store
  remoteCalls : Nat
deriving Repr

/-- `ImmichCtl::assets_search_add`: build the dto (rejecting empty
criteria), then run the pagination loop from page `1f64` adding every item,
and persist once after the loop; on any failure nothing is persisted. The
source additionally sets `with_exif = Some(true)` on the dto before the
loop; the dto is carried opaquely to the remote service, which this model
represents by its response script. -/
def assets_search_add (args : SearchArgs) (disk : Store) (env : RemoteEnv) :
    CmdOutcome :=
  let b := build_search_dto args env
  match b.1 with
  | .error e => ⟨.error e, disk, b.2⟩
  | .ok _dto =>
    let r := searchLoop add_asset env.script (.num 1 0) disk []
    match r.1 with
    | .ok store => ⟨.ok (), store, b.2 + r.2.length⟩
    | .error e => ⟨.error e, disk, b.2 + r.2.length⟩

/-- The retain predicate of the local removal path, accumulating exactly
the source's `retain` flag: an asset is kept when some set criterion
disagrees with it. `none` propagates a timezone-parser panic reached
through the resolver. -/
def retainPred (args : SearchArgs) (a : AssetRecord) : Option Bool :=
  let r1 := match args.id with
    | some i => !(a.id == i)
    | none => false
  let r2 := match args.favorite with
    | some f => if a.is_favorite != f then true else r1
    | none => r1
  let s3 : Option Bool := match args.taken_after with
    | none => some r2
    | some ta =>
      match get_date_time_original a with
      | none => none
      | some dt => some (if dt.instant ≤ ta.instant then true else r2)
  match s3 with
  | none => none
  | some r3 =>
    let s4 : Option Bool := match args.taken_before with
      | none => some r3
      | some tb =>
        match get_date_time_original a with
        | none => none
        | some dt => some (if tb.instant ≤ dt.instant then true else r3)
    match s4 with
    | none => none
    | some r4 =>
      match args.timezone with
      | none => some r4
      | some tz =>
        match exif_timezone_offset a with
        | none => none
        | some etz =>
          let asset_tz := match etz with
            | some t => t
            | none => asset_timezone_offset a
          some (if asset_tz ≠ tz then true else r4)

/-- `HashMap::retain` over the store with the predicate above; `none` when
evaluating the predicate panics on some record. -/
def retainStore (args : SearchArgs) : Store → Option Store
  | [] => some []
  | p :: rest =>
    match retainPred args p.2, retainStore args rest with
    | some true, some r => some (p :: r)
    | some false, some r => some r
    | _, _ => none

/-- `ImmichCtl::assets_search_remove`: when a tag or album criterion is
present, reject a simultaneous timezone bound, otherwise build the dto and
run the pagination loop removing every returned id; without tag and album
the criteria are evaluated locally via `retain` with no remote call. The
store is persisted once at the end of a successful run. -/
def assets_search_remove (args : SearchArgs) (disk : Store)
    (env : RemoteEnv) : CmdOutcome :=
  if args.tag.isSome || args.album.isSome then
    if args.timezone.isSome then ⟨.error .validation, disk, 0⟩
    else
      let b := build_search_dto args env
      match b.1 with
      | .error e => ⟨.error e, disk, b.2⟩
      | .ok _dto =>
        let r := searchLoop (fun s a => remove_asset s a.id) env.script
          (.num 1 0) disk []
        match r.1 with
        | .ok store => ⟨.ok (), store, b.2 + r.2.length⟩
        | .error e => ⟨.error e, disk, b.2 + r.2.length⟩
  else
    match retainStore args disk with
    | some store => ⟨.ok (), store, 0⟩
    | none => ⟨.error .crash, disk, 0⟩

/-! ## Persistence of the selection store (`assets.rs`) and config -/

/-- JSON documents as produced by serde. chrono timestamps round-trip
through an injective textual form; they are modelled here by their numeric
instant. -/
inductive Json where
  | null
  | bool (b : Bool)
  | num (n : Int)
  | str (s : String)
  | arr (xs : List Json)
  | obj (fields : List (String × Json))

/-- First field of an object with the given key (serde emits each key
once). -/
def jLookup (fields : List (String × Json)) (k : String) : Option Json :=
  match fields.find? (fun p => p.1 == k) with
  | some p => some p.2
  | none => none

/-- serde encoding of an `Option` field: `null` or the value. -/
def jOpt (f : α → Json) : Option α → Json
  | none => Json.null
  | some x => f x

/-- serde encoding of `ExifResponseDto`'s modelled fields. -/
def encodeExif (e : ExifResponse) : Json :=
  Json.obj [("dateTimeOriginal", jOpt Json.num e.date_time_original),
            ("timeZone", jOpt Json.str e.time_zone)]

/-- serde encoding of `AssetResponseDto`'s modelled fields. -/
def encodeAsset (a : AssetRecord) : Json :=
  Json.obj [("id", Json.str a.id),
            ("fileCreatedAt", Json.num a.file_created_at),
            ("localDateTime", Json.num a.local_date_time),
            ("isFavorite", Json.bool a.is_favorite),
            ("originalFileName", Json.str a.original_file_name),
            ("exifInfo", jOpt encodeExif a.exif_info)]

/-- serde decoding of an optional numeric field. -/
def decOptNum : Option Json → Option (Option Int)
  | some (Json.num n) => some (some n)
  | some Json.null => some none
  | _ => none

/-- serde decoding of an optional string field. -/
def decOptStr : Option Json → Option (Option String)
  | some (Json.str s) => some (some s)
  | some Json.null => some none
  | _ => none

/-- serde decoding of `ExifResponseDto`'s modelled fields. -/
def decodeExif : Json → Option ExifResponse
  | Json.obj fs =>
    match decOptNum (jLookup fs "dateTimeOriginal"),
        decOptStr (jLookup fs "timeZone") with
    | some d, some t => some ⟨d, t⟩
    | _, _ => none
  | _ => none

/-- serde decoding of `AssetResponseDto`'s modelled fields. -/
def decodeAsset : Json → Option AssetRecord
  | Json.obj fs =>
    match jLookup fs "id", jLookup fs "fileCreatedAt",
        jLookup fs "localDateTime", jLookup fs "isFavorite",
        jLookup fs "originalFileName", jLookup fs "exifInfo" with
    | some (Json.str i), some (Json.num fc), some (Json.num ld),
        some (Json.bool fav), some (Json.str ofn), some ej =>
      match ej with
      | Json.null => some ⟨i, fc, ld, fav, ofn, none⟩
      | _ =>
        match decodeExif ej with
        | some e => some ⟨i, fc, ld, fav, ofn, some e⟩
        | none => none
    | _, _, _, _, _, _ => none
  | _ => none

/-- serde encoding of the `assets` map: one object keyed by asset id. -/
def encodeStore (s : Store) : Json :=
  Json.obj (s.map (fun p => (p.1, encodeAsset p.2)))

/-- serde decoding of the `assets` map entries. -/
def decodeEntries : List (String × Json) → Option Store
  | [] => some []
  | (k, v) :: rest =>
    match decodeAsset v, decodeEntries rest with
    | some a, some r => some ((k, a) :: r)
    | _, _ => none

/-- Serialization of the whole `Assets` struct: the `file` field carries
`#[serde(skip)]`, so the document holds only the `assets` map. -/
def encodeAssetsDoc (s : Store) : Json :=
  Json.obj [("assets", encodeStore s)]

/-- Deserialization of a persisted selection document. -/
def decodeAssetsDoc : Json → Option Store
  | Json.obj fs =>
    match jLookup fs "assets" with
    | some (Json.obj entries) => decodeEntries entries
    | _ => none
  | _ => none

/-- The in-memory `Assets` struct: the bound path plus the asset map. -/
structure AssetsState where
  file : String
  assets : Store
deriving Repr

/-- Permission mode a file is created with: `File::create` leaves the
platform default, `OpenOptions::mode(0o600)` restricts to owner
read/write. -/
inductive FileMode where
  | defaultMode
  | ownerOnly
deriving DecidableEq, Repr

/-- Observable filesystem effect of one successful save: the target path,
whether the parent directories were created, the serialized document, and
the permission mode of the created file. -/
structure SaveEffect where
  path : String
  parentDirsCreated : Bool
  doc : Json
  mode : FileMode

/-- `Assets::save`: `create_dir_all` on the parent of the bound path,
pretty-serialize the whole struct, then `fs::File::create` (which uses the
platform default permission mode) and write the bytes. -/
def assets_save (st : AssetsState) : SaveEffect :=
  ⟨st.file, true, encodeAssetsDoc st.assets, .defaultMode⟩

/-- The persisted `Config` struct's serialized fields. -/
structure ConfigModel where
  server : String
  apikey : String
deriving DecidableEq, Repr

/-- `Config::save`: `create_dir_all` on the parent, serialize, then (on
unix) open with `OpenOptions` write/create/truncate and `mode(0o600)` —
owner read/write only. -/
def config_save (file : String) (c : ConfigModel) : SaveEffect :=
  ⟨file, true,
    Json.obj [("server", Json.str c.server), ("apikey", Json.str c.apikey)],
    .ownerOnly⟩

/-- `Assets::load`: a missing file (`none` content) or a document that
fails to deserialize yields an empty store; in every case the returned
store is bound to the load path. -/
def assets_load (path : String) (content : Option Json) : AssetsState :=
  match content with
  | none => ⟨path, []⟩
  | some doc =>
    match decodeAssetsDoc doc with
    | some m => ⟨path, m⟩
    | none => ⟨path, []⟩

/-! ## Concrete values used by witnesses and counterexamples -/

/-- Epoch second of 2024-01-01T00:00:00Z. -/
def epoch2024 : Int := 1704067200

/-- The record of the repository's own adjuster unit test: created
2024-01-01T10:00:00Z with device wall clock 12:00, hence a +02:00 derived
offset, and no EXIF data. -/
def exAsset : AssetRecord :=
  ⟨"a1a7f1a9-7394-49f7-a5a3-e876a7e16ab1", epoch2024 + 36000,
    epoch2024 + 43200, false, "test.jpg", none⟩

/-- A second plain record, created one day later. -/
def exAsset2 : AssetRecord :=
  ⟨"b2b8f2b9-8395-4af8-b5b3-f987b8f27ab2", epoch2024 + 122400,
    epoch2024 + 129600, false, "test2.jpg", none⟩

/-- A record whose device clock drifts exactly 24 hours ahead of the file
creation time. -/
def driftAsset : AssetRecord :=
  ⟨"c3c9f3c9-9396-4bf9-c5c3-0a98c9f38ac3", epoch2024, epoch2024 + 86400,
    false, "drift.jpg", none⟩

/-- A remote environment with empty catalogs and no scripted responses. -/
def emptyEnv : RemoteEnv := ⟨[], [], []⟩

/-- The two-record store used by concrete scenarios. -/
def disk2 : Store := [(exAsset.id, exAsset), (exAsset2.id, exAsset2)]

/-- Removal criteria consisting of the two taken bounds only. -/
def boundsOnly (A B : DateTimeFO) : SearchArgs :=
  ⟨none, none, none, none, some A, some B, none⟩

/-- A removal request mixing a tag criterion with a timezone bound. -/
def tagTzArgs : SearchArgs :=
  ⟨none, some "tag1", none, none, none, none, some 7200⟩

/-- The response script of the pagination counterexample: the first page is
empty but carries the token `"0"`, a second response exists and would
deliver a record. -/
def zeroTokScript : List SearchPage :=
  [⟨[], some "0"⟩, ⟨[exAsset], none⟩]

/-- A response whose token does not parse as a number. -/
def badTokScript : List SearchPage :=
  [⟨[], some "abc"⟩]

/-! ## Helper lemmas -/

theorem east_opt_eq_some {x o : Int} (h : east_opt x = some o) :
    o = x ∧ -86400 < o ∧ o < 86400 := by
  unfold east_opt at h
  split at h
  · cases h
    exact ⟨rfl, by omega⟩
  · cases h

theorem tzFromParts_ok {s h m o : Int} (hp : tzFromParts s h m = .ok o) :
    (-86400 < o ∧ o < 86400) ∧ (60 : Int) ∣ o := by
  unfold tzFromParts at hp
  split at hp
  · cases hp
  · rcases he : east_opt ((h * 3600 + m * 60) * s) with _ | v
    · rw [he] at hp
      cases hp
    · rw [he] at hp
      obtain ⟨hx, hb1, hb2⟩ := east_opt_eq_some he
      cases hp
      refine ⟨⟨hb1, hb2⟩, ⟨(h * 60 + m) * s, ?_⟩⟩
      rw [hx]
      ring

/-! ## Claim theorems -/

/-- Claim C7 (counterexample): the parser accepts inputs whose offset
magnitude exceeds 14 hours. The hour and minute components are only
bounded from above (hours at most 14, minutes at most 59), never from
below; `"+14:59"` yields +14:59, and a negative component smuggled through
`parse::<i32>` such as in `"+-9:-899"` yields -23:59, both outside the
claimed inclusive range -14:00..+14:00 (i.e. -50400..50400 seconds). -/
theorem claim_C7_counterexample :
    parse_exif_timezone ("+-9:-899".toList) = .ok (-86340) ∧
    parse_exif_timezone ("+14:59".toList) = .ok 53940 ∧
    ¬(-50400 ≤ (-86340 : Int) ∧ (-86340 : Int) ≤ 50400) ∧
    ¬((53940 : Int) ≤ 50400) := by
  refine ⟨by decide, by decide, by decide, by decide⟩

/-- Claim C7 (amended): every offset the parser accepts is a whole number
of minutes lying strictly within one day of UTC (the `east_opt` bound);
magnitudes up to 23:59 are reachable, so the claimed bound of 14:00 holds
only for inputs whose components are non-negative. -/
theorem claim_C7_amended (s : List Char) (o : Int)
    (hp : parse_exif_timezone s = .ok o) :
    (-86400 < o ∧ o < 86400) ∧ (60 : Int) ∣ o := by
  simp only [parse_exif_timezone] at hp
  split at hp
  · cases hp
  · split at hp
    · rcases he : east_opt 0 with _ | v
      · rw [he] at hp
        cases hp
      · rw [he] at hp
        obtain ⟨hx, hb1, hb2⟩ := east_opt_eq_some he
        cases hp
        exact ⟨⟨hb1, hb2⟩, hx ▸ ⟨0, by ring⟩⟩
    · split at hp
      · cases hp
      · split at hp
        · split at hp
          · split at hp
            · cases hp
            · split at hp
              · cases hp
              · split at hp
                · cases hp
                · split at hp
                  · cases hp
                  · split at hp
                    · cases hp
                    · exact tzFromParts_ok hp
          · split at hp
            · cases hp
            · split at hp
              · cases hp
              · exact tzFromParts_ok hp
        · cases hp

/-- Claim C7 (witness): the amended bound instantiated at the accepted
input `"+02:00"`. -/
theorem claim_C7_witness :
    parse_exif_timezone ("+02:00".toList) = .ok 7200 ∧
    ((-86400 < (7200 : Int) ∧ (7200 : Int) < 86400) ∧ (60 : Int) ∣ 7200) :=
  ⟨by decide, claim_C7_amended ("+02:00".toList) 7200 (by decide)⟩

/-- Claim C8: the parser is not total — on `"+😀"` (sign followed by one
four-byte scalar) the `HHMM` branch byte-slices `hours_str[0..2]` at a
non-character-boundary index, a Rust panic, while the claim promises an
offset or a validation error for every input; the empty string is indeed
an error. -/
theorem claim_C8_code_behavior :
    parse_exif_timezone ("+😀".toList) = .crash ∧
    parse_exif_timezone ("".toList) = .err :=
  ⟨by decide, by decide⟩

/-- Claim C1 (counterexample): with no EXIF data and a device-clock drift
of exactly 24 hours — not more than 24 hours, so per the claim the derived
offset (86400 s) should be kept — the code's `east_opt` open bound already
rejects it and falls back to UTC, offset 0. -/
theorem claim_C1_counterexample :
    get_date_time_original driftAsset =
      some ⟨driftAsset.file_created_at, 0⟩ ∧
    driftAsset.local_date_time - driftAsset.file_created_at = 86400 ∧
    ¬((86400 : Int) > 24 * 3600) ∧
    (0 : Int) ≠ 86400 :=
  ⟨by decide, by decide, by decide, by decide⟩

/-- Claim C1 (amended): whenever the resolver completes, the result obeys
the layered precedence — the EXIF instant at the parsed EXIF offset when
`exif_date_time_original` and `exif_time_zone` are both present and the
timezone string parses successfully, else `file_created_at` at the offset
derived as `local_date_time - file_created_at` in whole seconds reduced to
32 bits, falling back to UTC when that value's magnitude reaches 24 hours
or more. -/
theorem claim_C1_amended (a : AssetRecord) (dt : DateTimeFO)
    (hr : get_date_time_original a = some dt) :
    (∀ e d tzs tz, a.exif_info = some e → e.date_time_original = some d →
        e.time_zone = some tzs → parse_exif_timezone tzs.toList = .ok tz →
        dt = ⟨d, tz⟩) ∧
    ((∀ e d tzs tz, a.exif_info = some e → e.date_time_original = some d →
        e.time_zone = some tzs → parse_exif_timezone tzs.toList ≠ .ok tz) →
      dt = ⟨a.file_created_at,
        if -86400 < wrap32 (a.local_date_time - a.file_created_at) ∧
            wrap32 (a.local_date_time - a.file_created_at) < 86400 then
          wrap32 (a.local_date_time - a.file_created_at)
        else 0⟩) := by
  constructor
  · intro e d tzs tz he hd ht hp
    unfold get_date_time_original get_exif_date_time_original at hr
    rw [he] at hr
    simp only [hd, ht, hp] at hr
    cases hr
    rfl
  · intro hno
    have hoff : asset_timezone_offset a =
        if -86400 < wrap32 (a.local_date_time - a.file_created_at) ∧
            wrap32 (a.local_date_time - a.file_created_at) < 86400 then
          wrap32 (a.local_date_time - a.file_created_at)
        else 0 := by
      unfold asset_timezone_offset east_opt
      by_cases hc : -86400 < wrap32 (a.local_date_time - a.file_created_at) ∧
          wrap32 (a.local_date_time - a.file_created_at) < 86400
      · simp [hc]
      · simp [hc]
    have hfb : get_assert_date_time_original a =
        ⟨a.file_created_at,
          if -86400 < wrap32 (a.local_date_time - a.file_created_at) ∧
              wrap32 (a.local_date_time - a.file_created_at) < 86400 then
            wrap32 (a.local_date_time - a.file_created_at)
          else 0⟩ := by
      unfold get_assert_date_time_original
      rw [hoff]
    unfold get_date_time_original get_exif_date_time_original at hr
    cases hea : a.exif_info with
    | none =>
      rw [hea] at hr
      simp only at hr
      cases hr
      exact hfb
    | some e =>
      rw [hea] at hr
      cases hd : e.date_time_original with
      | none =>
        simp only [hd] at hr
        cases hr
        exact hfb
      | some d =>
        cases ht : e.time_zone with
        | none =>
          simp only [hd, ht] at hr
          cases hr
          exact hfb
        | some tzs =>
          simp only [hd, ht] at hr
          cases hp : parse_exif_timezone tzs.toList with
          | ok tz => exact absurd hp (hno e d tzs tz hea hd ht)
          | err =>
            rw [hp] at hr
            cases hr
            exact hfb
          | crash =>
            rw [hp] at hr
            cases hr

/-- Claim C1 (witness): the amended characterization instantiated at the
EXIF-less record with a +2 h device drift, which resolves to
`file_created_at` at offset +02:00. -/
theorem claim_C1_witness :
    get_date_time_original exAsset =
      some ⟨exAsset.file_created_at, 7200⟩ ∧
    DateTimeFO.mk exAsset.file_created_at 7200 =
      ⟨exAsset.file_created_at,
        if -86400 < wrap32 (exAsset.local_date_time - exAsset.file_created_at) ∧
            wrap32 (exAsset.local_date_time - exAsset.file_created_at) < 86400 then
          wrap32 (exAsset.local_date_time - exAsset.file_created_at)
        else 0⟩ :=
  ⟨by decide,
    (claim_C1_amended exAsset ⟨exAsset.file_created_at, 7200⟩ (by decide)).2
      (by
        intro e d tzs tz he
        exact absurd he (by simp [exAsset]))⟩

/-- Claim C2: whenever the record resolves, `adjust` returns the resolved
instant as `old` and, as `new`, the absolute instant shifted by the delta
(wall-clock fields are never reinterpreted) carrying the target offset
when supplied and the old offset otherwise; instantiated at the record
resolving to 2024-01-01T12:00:00+02:00 this yields the claim's three
examples 13:00:00+02:00, 10:00:00+00:00 and 06:30:00-04:00 (stated as
instant-offset pairs). -/
theorem claim_C2 :
    (∀ (a : AssetRecord) (delta : Int) (tzOpt : Option Int)
        (dt : DateTimeFO), get_date_time_original a = some dt →
      adjust_date_time_original a delta tzOpt =
        some (dt, ⟨dt.instant + delta, tzOpt.getD dt.offset⟩)) ∧
    adjust_date_time_original exAsset 3600 none =
      some (⟨epoch2024 + 36000, 7200⟩, ⟨epoch2024 + 39600, 7200⟩) ∧
    adjust_date_time_original exAsset 0 (some 0) =
      some (⟨epoch2024 + 36000, 7200⟩, ⟨epoch2024 + 36000, 0⟩) ∧
    adjust_date_time_original exAsset 1800 (some (-14400)) =
      some (⟨epoch2024 + 36000, 7200⟩, ⟨epoch2024 + 37800, -14400⟩) := by
  refine ⟨?_, by decide, by decide, by decide⟩
  intro a delta tzOpt dt h
  unfold adjust_date_time_original
  rw [h]
  cases tzOpt <;> rfl

/-- Claim C2 (witness): the universal part instantiated at the +1 h
adjustment of the example record. -/
theorem claim_C2_witness :
    get_date_time_original exAsset = some ⟨epoch2024 + 36000, 7200⟩ ∧
    adjust_date_time_original exAsset 3600 none =
      some (⟨epoch2024 + 36000, 7200⟩,
        ⟨(DateTimeFO.mk (epoch2024 + 36000) 7200).instant + 3600,
          (none : Option Int).getD
            (DateTimeFO.mk (epoch2024 + 36000) 7200).offset⟩) :=
  ⟨by decide,
    claim_C2.1 exAsset 3600 none ⟨epoch2024 + 36000, 7200⟩ (by decide)⟩

/-- Claim C3: a removal whose criteria include a tag or album reference
together with a timezone bound fails with a validation error before any
remote call, and the persisted store is unchanged. -/
theorem claim_C3 (args : SearchArgs) (disk : Store) (env : RemoteEnv)
    (h1 : (args.tag.isSome || args.album.isSome) = true)
    (h2 : args.timezone.isSome = true) :
    (assets_search_remove args disk env).result =
      Except.error CmdErr.validation ∧
    (assets_search_remove args disk env).disk = disk ∧
    (assets_search_remove args disk env).remoteCalls = 0 := by
  unfold assets_search_remove
  simp [h1, h2]

/-- Claim C3 (witness): the validation rejection instantiated at a tag
criterion combined with a +02:00 timezone bound over the two-record
store. -/
theorem claim_C3_witness :
    (tagTzArgs.tag.isSome || tagTzArgs.album.isSome) = true ∧
    tagTzArgs.timezone.isSome = true ∧
    ((assets_search_remove tagTzArgs disk2 emptyEnv).result =
        Except.error CmdErr.validation ∧
      (assets_search_remove tagTzArgs disk2 emptyEnv).disk = disk2 ∧
      (assets_search_remove tagTzArgs disk2 emptyEnv).remoteCalls = 0) :=
  ⟨by decide, by decide,
    claim_C3 tagTzArgs disk2 emptyEnv (by decide) (by decide)⟩

/-- Claim C4: the claim holds for the add direction — an all-empty
criteria set is rejected by `build_search_dto` with no remote call and an
untouched store — but it is violated by the remove direction: with no tag
or album criterion the code takes the local `retain` path, whose
accumulated keep-flag stays `false` when no criterion is set, so the
command succeeds, removes every record and persists the emptied store
instead of failing validation. -/
theorem claim_C4_code_behavior :
    (assets_search_remove SearchArgs.empty disk2 emptyEnv).result =
      Except.ok () ∧
    (assets_search_remove SearchArgs.empty disk2 emptyEnv).disk = [] ∧
    (assets_search_remove SearchArgs.empty disk2 emptyEnv).remoteCalls = 0 ∧
    (assets_search_add SearchArgs.empty disk2 emptyEnv).result =
      Except.error CmdErr.validation ∧
    (assets_search_add SearchArgs.empty disk2 emptyEnv).disk = disk2 ∧
    (assets_search_add SearchArgs.empty disk2 emptyEnv).remoteCalls = 0 :=
  ⟨rfl, rfl, rfl, rfl, rfl, rfl⟩

theorem retainPred_bounds (A B : DateTimeFO) (a : AssetRecord)
    (dt : DateTimeFO) (h : get_date_time_original a = some dt) :
    retainPred (boundsOnly A B) a =
      some (decide (dt.instant ≤ A.instant) ||
        decide (B.instant ≤ dt.instant)) := by
  unfold retainPred boundsOnly
  simp only [h]
  by_cases h1 : dt.instant ≤ A.instant <;>
    by_cases h2 : B.instant ≤ dt.instant <;> simp [h1, h2]

theorem retainStore_eq_filter (args : SearchArgs) (s : Store)
    (h : ∀ p ∈ s, (retainPred args p.2).isSome = true) :
    retainStore args s =
      some (s.filter (fun p => (retainPred args p.2).getD false)) := by
  induction s with
  | nil => rfl
  | cons p rest ih =>
    obtain ⟨b, hb⟩ :=
      Option.isSome_iff_exists.mp (h p (List.mem_cons_self p rest))
    have ihr := ih (fun q hq => h q (List.mem_cons_of_mem p hq))
    unfold retainStore
    rw [hb, ihr]
    cases b <;> simp [List.filter_cons, hb]

/-- Claim C5: a local removal whose only criteria are the two taken
bounds succeeds with zero remote calls, and (whenever every cached record
resolves) retains exactly the records whose resolved instant lies outside
the open interval between the bounds. -/
theorem claim_C5 (A B : DateTimeFO) (disk : Store) (env : RemoteEnv)
    (hres : ∀ p ∈ disk, (get_date_time_original p.2).isSome = true) :
    (assets_search_remove (boundsOnly A B) disk env).result =
      Except.ok () ∧
    (assets_search_remove (boundsOnly A B) disk env).remoteCalls = 0 ∧
    ∀ q, q ∈ (assets_search_remove (boundsOnly A B) disk env).disk ↔
      (q ∈ disk ∧ ∀ dt, get_date_time_original q.2 = some dt →
        ¬(A.instant < dt.instant ∧ dt.instant < B.instant)) := by
  have hps : ∀ p ∈ disk, (retainPred (boundsOnly A B) p.2).isSome = true := by
    intro p hp
    obtain ⟨dt, hdt⟩ := Option.isSome_iff_exists.mp (hres p hp)
    rw [retainPred_bounds A B p.2 dt hdt]
    rfl
  have hrs := retainStore_eq_filter (boundsOnly A B) disk hps
  have hcmd : assets_search_remove (boundsOnly A B) disk env =
      ⟨Except.ok (),
        disk.filter (fun p => (retainPred (boundsOnly A B) p.2).getD false),
        0⟩ := by
    unfold assets_search_remove
    rw [hrs]
    rfl
  rw [hcmd]
  refine ⟨rfl, rfl, ?_⟩
  intro q
  simp only [List.mem_filter]
  constructor
  · rintro ⟨hq, hf⟩
    refine ⟨hq, ?_⟩
    intro dt hdt hbad
    rw [retainPred_bounds A B q.2 dt hdt] at hf
    simp only [Option.getD_some, Bool.or_eq_true, decide_eq_true_eq] at hf
    omega
  · rintro ⟨hq, hout⟩
    obtain ⟨dt, hdt⟩ := Option.isSome_iff_exists.mp (hres q hq)
    refine ⟨hq, ?_⟩
    rw [retainPred_bounds A B q.2 dt hdt]
    have ho := hout dt hdt
    simp only [Option.getD_some, Bool.or_eq_true, decide_eq_true_eq]
    omega

/-- Claim C5 (witness): the bounds of the repository's own removal unit
test (2024-01-01T12:00Z, 2024-01-02T12:00Z) over the two-record store; the
first record resolves before the lower bound and stays, the second
resolves inside the interval and is removed. -/
theorem claim_C5_witness :
    (∀ p ∈ disk2, (get_date_time_original p.2).isSome = true) ∧
    ((assets_search_remove
        (boundsOnly ⟨epoch2024 + 43200, 0⟩ ⟨epoch2024 + 129600, 0⟩)
        disk2 emptyEnv).result = Except.ok () ∧
      (assets_search_remove
        (boundsOnly ⟨epoch2024 + 43200, 0⟩ ⟨epoch2024 + 129600, 0⟩)
        disk2 emptyEnv).remoteCalls = 0 ∧
      ∀ q, q ∈ (assets_search_remove
          (boundsOnly ⟨epoch2024 + 43200, 0⟩ ⟨epoch2024 + 129600, 0⟩)
          disk2 emptyEnv).disk ↔
        (q ∈ disk2 ∧ ∀ dt, get_date_time_original q.2 = some dt →
          ¬((⟨epoch2024 + 43200, 0⟩ : DateTimeFO).instant < dt.instant ∧
            dt.instant <
              (⟨epoch2024 + 129600, 0⟩ : DateTimeFO).instant))) :=
  ⟨by decide,
    claim_C5 ⟨epoch2024 + 43200, 0⟩ ⟨epoch2024 + 129600, 0⟩ disk2 emptyEnv
      (by decide)⟩

theorem searchLoop_stop (act : Store → AssetRecord → Store)
    (script : List SearchPage) (p : F64) (store : Store) (log : List F64)
    (h : f64gt0 p = false) :
    searchLoop act script p store log = (.ok store, log) := by
  cases script <;> simp [searchLoop, h]

theorem searchLoop_cons_none (act : Store → AssetRecord → Store)
    (resp : SearchPage) (rest : List SearchPage) (p : F64) (store : Store)
    (log : List F64) (h : f64gt0 p = true) (hnp : resp.next_page = none) :
    searchLoop act (resp :: rest) p store log =
      (.ok (resp.items.foldl act store), log ++ [p]) := by
  rw [searchLoop]
  simp only [h, if_true, hnp]

theorem searchLoop_cons_bad (act : Store → AssetRecord → Store)
    (resp : SearchPage) (rest : List SearchPage) (p : F64) (store : Store)
    (log : List F64) (tok : String) (h : f64gt0 p = true)
    (hnp : resp.next_page = some tok) (hpf : parseF64 tok.toList = none) :
    searchLoop act (resp :: rest) p store log =
      (.error .invalidNextPage, log ++ [p]) := by
  rw [searchLoop]
  simp only [h, if_true, hnp, hpf]

theorem searchLoop_cons_good (act : Store → AssetRecord → Store)
    (resp : SearchPage) (rest : List SearchPage) (p : F64) (store : Store)
    (log : List F64) (tok : String) (v : F64) (h : f64gt0 p = true)
    (hnp : resp.next_page = some tok) (hpf : parseF64 tok.toList = some v) :
    searchLoop act (resp :: rest) p store log =
      searchLoop act rest v (resp.items.foldl act store) (log ++ [p]) := by
  rw [searchLoop]
  simp only [h, if_true, hnp, hpf]

theorem specDrive_cons (act : Store → AssetRecord → Store)
    (resp : SearchPage) (rest : List SearchPage) (store : Store) :
    specDrive act (resp :: rest) store =
      match specTokenStep resp.next_page with
      | some false => (.ok (resp.items.foldl act store), 1)
      | none => (.error .invalidNextPage, 1)
      | some true =>
        ((specDrive act rest (resp.items.foldl act store)).1,
          (specDrive act rest (resp.items.foldl act store)).2 + 1) := rfl

theorem searchLoop_spec (act : Store → AssetRecord → Store)
    (script : List SearchPage) :
    ∀ (p : F64) (store : Store) (log : List F64), f64gt0 p = true →
      (searchLoop act script p store log).1 =
        (specDrive act script store).1 ∧
      ∃ tl, (searchLoop act script p store log).2 = log ++ p :: tl ∧
        tl.length + 1 = (specDrive act script store).2 := by
  induction script with
  | nil =>
    intro p store log h
    simp [searchLoop, specDrive, h]
  | cons resp rest ih =>
    intro p store log h
    rw [specDrive_cons act resp rest store]
    cases hnp : resp.next_page with
    | none =>
      rw [searchLoop_cons_none act resp rest p store log h hnp]
      exact ⟨rfl, [], rfl, rfl⟩
    | some tok =>
      cases hpf : parseF64 tok.toList with
      | none =>
        rw [searchLoop_cons_bad act resp rest p store log tok h hnp hpf]
        have hst : specTokenStep (some tok) = none := by
          show (match parseF64 tok.toList with
            | some v => some (f64gt0 v)
            | none => none) = none
          rw [hpf]
        rw [hst]
        exact ⟨rfl, [], rfl, rfl⟩
      | some v =>
        rw [searchLoop_cons_good act resp rest p store log tok v h hnp hpf]
        have hst : specTokenStep (some tok) = some (f64gt0 v) := by
          show (match parseF64 tok.toList with
            | some w => some (f64gt0 w)
            | none => none) = some (f64gt0 v)
          rw [hpf]
        rw [hst]
        cases hv : f64gt0 v with
        | false =>
          rw [searchLoop_stop act rest v _ _ hv]
          exact ⟨rfl, [], rfl, rfl⟩
        | true =>
          obtain ⟨h1, tl, h2, h3⟩ :=
            ih v (resp.items.foldl act store) (log ++ [p]) hv
          refine ⟨h1, v :: tl, ?_, ?_⟩
          · rw [h2]
            simp
          · show (v :: tl).length + 1 =
              (specDrive act rest (resp.items.foldl act store)).2 + 1
            simp only [List.length_cons]
            omega

/-- Claim C6 (counterexample): the driver does not continue whenever a
next-page token is present — a token of `"0"` parses as zero and stops the
loop after a single request (the scripted second page is never fetched),
and a non-numeric token aborts the whole operation with an error rather
than being treated as an opaque cursor. -/
theorem claim_C6_counterexample :
    (searchLoop add_asset zeroTokScript (.num 1 0) [] []).1 =
      Except.ok ([] : Store) ∧
    (searchLoop add_asset zeroTokScript (.num 1 0) [] []).2 = [F64.num 1 0] ∧
    (zeroTokScript.headD ⟨[], none⟩).next_page = some "0" ∧
    zeroTokScript.length = 2 ∧
    (searchLoop add_asset badTokScript (.num 1 0) [] []).1 =
      Except.error CmdErr.invalidNextPage :=
  ⟨rfl, rfl, rfl, rfl, rfl⟩

/-- Claim C6 (amended): the loop shared by search-add and remote removal
starts at page 1 and is equivalent to the token-driven reference driver —
it consumes responses in order, feeds every item of each consumed page to
the store mutation in order, and issues a further request exactly when the
current response carries a token that parses as a number greater than
zero; an absent token or one parsing as not greater than zero stops the
loop, and an unparsable token fails the operation, so the token is
numerically interpreted rather than opaque. -/
theorem claim_C6_amended (act : Store → AssetRecord → Store)
    (script : List SearchPage) (store : Store) :
    (searchLoop act script (.num 1 0) store []).1 =
      (specDrive act script store).1 ∧
    (searchLoop act script (.num 1 0) store []).2.length =
      (specDrive act script store).2 ∧
    (searchLoop act script (.num 1 0) store []).2.head? =
      some (F64.num 1 0) := by
  obtain ⟨h1, tl, h2, h3⟩ :=
    searchLoop_spec act script (.num 1 0) store [] (by decide)
  refine ⟨h1, ?_, ?_⟩
  · rw [h2, ← h3]
    simp
  · rw [h2]
    rfl

theorem decodeExif_encodeExif (e : ExifResponse) :
    decodeExif (encodeExif e) = some e := by
  cases e with
  | mk d t => cases d <;> cases t <;> rfl

theorem decodeAsset_encodeAsset (a : AssetRecord) :
    decodeAsset (encodeAsset a) = some a := by
  cases a with
  | mk i fc ld fav ofn ex =>
    cases ex with
    | none => rfl
    | some e =>
      show (match decodeExif (encodeExif e) with
        | some e2 => some (AssetRecord.mk i fc ld fav ofn (some e2))
        | none => (none : Option AssetRecord)) =
        some (AssetRecord.mk i fc ld fav ofn (some e))
      rw [decodeExif_encodeExif e]

theorem decodeEntries_encodeStore (s : Store) :
    decodeEntries (s.map (fun p => (p.1, encodeAsset p.2))) = some s := by
  induction s with
  | nil => rfl
  | cons p rest ih =>
    show (match decodeAsset (encodeAsset p.2),
        decodeEntries (rest.map (fun q => (q.1, encodeAsset q.2))) with
      | some a, some r => some ((p.1, a) :: r)
      | _, _ => none) = some (p :: rest)
    rw [decodeAsset_encodeAsset p.2, ih]

theorem decodeAssetsDoc_encodeAssetsDoc (s : Store) :
    decodeAssetsDoc (encodeAssetsDoc s) = some s := by
  show decodeEntries (s.map (fun p => (p.1, encodeAsset p.2))) = some s
  exact decodeEntries_encodeStore s

/-- Claim C9 (counterexample): `Assets::save` on a concretely populated
store creates the selection file through plain `fs::File::create`, i.e.
with the platform default permission mode, not the owner-only mode the
claim requires on POSIX platforms. -/
theorem claim_C9_counterexample :
    (assets_save ⟨"/home/user/.immichctl/assets.json", disk2⟩).mode =
      FileMode.defaultMode ∧
    FileMode.defaultMode ≠ FileMode.ownerOnly :=
  ⟨rfl, by decide⟩

/-- Claim C9 (amended): a successful save serializes the full id-to-record
map to the bound path, creating parent directories as needed, but the
selection file is created with default platform permissions; the owner
read/write-only mode (0o600) is applied by this program only to the config
file's save path, not the selection file's. -/
theorem claim_C9_amended (st : AssetsState) (cfile : String)
    (c : ConfigModel) :
    (assets_save st).path = st.file ∧
    (assets_save st).parentDirsCreated = true ∧
    (assets_save st).doc = Json.obj [("assets", encodeStore st.assets)] ∧
    decodeAssetsDoc (assets_save st).doc = some st.assets ∧
    (assets_save st).mode = FileMode.defaultMode ∧
    (config_save cfile c).mode = FileMode.ownerOnly :=
  ⟨rfl, rfl, rfl, decodeAssetsDoc_encodeAssetsDoc st.assets, rfl, rfl⟩

/-- Claim C10: loading the document written by a successful save yields a
store holding exactly the saved asset map, bound to the load path; the
serialized document consists of the single `assets` key and does not
depend on the bound path, which is therefore never serialized. -/
theorem claim_C10 (st : AssetsState) (path : String) :
    assets_load path (some (assets_save st).doc) = ⟨path, st.assets⟩ ∧
    (∀ f1 f2 : String,
      (assets_save ⟨f1, st.assets⟩).doc = (assets_save ⟨f2, st.assets⟩).doc) ∧
    ∀ fs, (assets_save st).doc = Json.obj fs → fs.map Prod.fst = ["assets"] := by
  refine ⟨?_, fun f1 f2 => rfl, ?_⟩
  · show (match decodeAssetsDoc (encodeAssetsDoc st.assets) with
      | some m => (⟨path, m⟩ : AssetsState)
      | none => ⟨path, []⟩) = ⟨path, st.assets⟩
    rw [decodeAssetsDoc_encodeAssetsDoc st.assets]
  · intro fs hfs
    cases hfs
    rfl

end Immich
